import Mathlib

/-!
Verification of the StarRocks spillable hash-join build operator
(`be/src/exec/pipeline/hashjoin/spillable_hash_join_build_operator.cpp`)
and of the publish-version agent task (`be/src/agent/publish_version.cpp`),
as a shallow embedding in Lean 4.

External collaborators (the spiller, the spill channel, expression
evaluation, the hash table) are modelled as an explicit environment of
observables and result values; the operator's own control flow is
translated line by line from the source.
-/

namespace SpillableHashJoin

/-- Engine status values, mirroring `starrocks::Status`: `ok` is success,
the other constructors carry an error message. -/
inductive Status where
  | ok : Status
  | notFound (msg : String) : Status
  | cancelled (msg : String) : Status
  | endOfFile (msg : String) : Status
  | ioError (msg : String) : Status
  | internalError (msg : String) : Status
deriving DecidableEq, Repr

/-- `Status::ok()`. -/
def Status.isOk : Status → Bool
  | .ok => true
  | _ => false

/-- A columnar row batch: a list of columns, each column a list of cell
values (cell values abstracted to `Nat`). -/
structure Chunk where
  cols : List (List Nat)
deriving DecidableEq, Repr

/-- `Chunk::num_rows()`: the length of the first column (0 for a chunk
with no columns). -/
def Chunk.numRows (c : Chunk) : Nat :=
  match c.cols with
  | [] => 0
  | col :: _ => col.length

/-- Modelled from the spec: `ChunkSlice` (`column/vectorized_fwd.h`, not
under `src/`) — a cursor over a chunk that skips a fixed leading offset of
internal bookkeeping columns and cuts the remaining rows into batches. -/
structure ChunkSlice where
  cols : List (List Nat)
deriving DecidableEq, Repr

/-- Rows remaining in the slice. -/
def ChunkSlice.numRows (s : ChunkSlice) : Nat :=
  match s.cols with
  | [] => 0
  | col :: _ => col.length

/-- `ChunkSlice::reset(chunk)`: point the slice at a chunk. -/
def ChunkSlice.reset (c : Chunk) : ChunkSlice :=
  ⟨c.cols⟩

/-- `ChunkSlice::skip(offset)`: drop the leading bookkeeping columns. -/
def ChunkSlice.skip (s : ChunkSlice) (n : Nat) : ChunkSlice :=
  ⟨s.cols.drop n⟩

/-- `ChunkSlice::cutoff(n)`: yield a batch of at most `n` rows and advance
the slice past them. -/
def ChunkSlice.cutoff (s : ChunkSlice) (n : Nat) : Chunk × ChunkSlice :=
  (⟨s.cols.map (List.take n)⟩, ⟨s.cols.map (List.drop n)⟩)

/-- Modelled from the spec: `kHashJoinKeyColumnOffset` (`exec/join_hash_map.h`,
not under `src/`) — the fixed leading offset of internal bookkeeping columns
that the drain cursor must skip. -/
def kHashJoinKeyColumnOffset : Nat := 1

/-- `spill::SpillStrategy` as used by this operator. -/
inductive SpillStrategy where
  | noSpill : SpillStrategy
  | spillAll : SpillStrategy
deriving DecidableEq, Repr

/-- The state of one build instance together with the observables of the
collaborators it owns by reference (spiller, spill channel, join builder). -/
structure BuildState where
  /-- `_is_finished`. -/
  isFinished : Bool
  /-- The strategy returned by `spill_strategy()` / set by `set_spill_strategy`. -/
  strategy : SpillStrategy
  /-- `_is_first_time_spill`. -/
  isFirstTimeSpill : Bool
  /-- Whether `enter_probe_phase()` has been called on the join builder. -/
  probePhase : Bool
  /-- `spiller()->spilled()`. -/
  spilled : Bool
  /-- `spiller()->is_full()`. -/
  spillerFull : Bool
  /-- Whether `spiller()->cancel()` has been called. -/
  spillerCancelled : Bool
  /-- `spill_channel()->has_task()`. -/
  channelHasTask : Bool
  /-- `spill_channel()->is_working()`. -/
  channelIsWorking : Bool
  /-- Whether `spill_channel()->set_finishing()` has been called. -/
  channelFinishing : Bool
  /-- Whether `spiller()->set_flush_all_call_back` has been invoked to
  register the flush-all completion callback. -/
  flushCallbackRegistered : Bool
  /-- Number of finalize tasks handed to `spill_channel()->add_spill_task`. -/
  pendingFinalizeTasks : Nat
  /-- Number of times `append_spill_task` was invoked with the
  hash-table-slice iterator. -/
  spillTaskCount : Nat
  /-- Chunks admitted into the in-memory build index (hash table). -/
  buildChunks : List Chunk
  /-- Chunks handed to `append_chunk_to_spill_buffer` (the spill engine's
  write buffer). -/
  spillBuffer : List Chunk
  /-- `_hash_table_build_chunk_slice`. -/
  iterSlice : ChunkSlice
  /-- Whether `hash_join_builder()->reset(...)` has been called by the
  drain cursor. -/
  htResetDone : Bool
  /-- Accumulated `update_build_rows` counter. -/
  buildRowsCounter : Nat
  /-- `set_revocable_mem_bytes` value. -/
  revocableBytes : Nat
  /-- Number of calls to `publish_runtime_filters`. -/
  publishCalls : Nat
  /-- Whether empty runtime filters have been published through the
  runtime-filter port. -/
  filtersPublished : Bool
deriving DecidableEq, Repr

/-- Results and observables supplied by external collaborators that are not
part of this operator's own state: expression evaluation, the hash table's
schema conversion, the spiller entry points, and the runtime state. -/
structure SpillEnv where
  /-- `JoinHashTable::convert_to_spill_schema` result for a given chunk. -/
  convertToSpillSchema : Chunk → Except Status Chunk
  /-- `build_side_partition()`: each expression context's `evaluate` yields
  one value per row of the chunk, or an error. -/
  buildExprs : List (Chunk → Except Status (List Nat))
  /-- `Column::fnv_hash`: the per-row combination of the running hash with
  the evaluated column value (the result is reduced modulo 2^64). -/
  fnvCombine : Nat → Nat → Nat
  /-- Result of `append_chunk_to_spill_buffer` for a given chunk. -/
  appendBufferStatus : Chunk → Status
  /-- Result of `append_spill_task`. -/
  appendSpillTaskStatus : Status
  /-- `runtime_state()->chunk_size()`. -/
  chunkSize : Nat
  /-- `hash_table().get_build_chunk()`. -/
  getBuildChunk : Chunk
  /-- Result of `spiller()->set_flush_all_call_back`. -/
  setFlushAllCallBackStatus : Status
  /-- Result of `HashJoinBuildOperator::set_finishing` (base class, outside
  this translation unit). -/
  baseSetFinishingStatus : Status
  /-- `state->is_cancelled()`. -/
  stateCancelled : Bool
  /-- `_partial_rf_merger->set_always_true()` outcome. -/
  mergerSetAlwaysTrue : Bool

/-- `need_input()` (line 51): `!is_finished() && !(spiller()->is_full() ||
spill_channel()->has_task())`. -/
def needInput (s : BuildState) : Bool :=
  !s.isFinished && !(s.spillerFull || s.channelHasTask)

/-- `is_finished()` (line 138). -/
def isFinished (s : BuildState) : Bool :=
  s.isFinished

/-- Modelled from the spec: `HashJoinBuildOperator::mark_need_spill` (base
class, not under `src/`). The spec treats `mark_need_spill` as idempotent
and a no-op once the operator has finished, so the base step carries no
state change beyond the derived class's strategy update. -/
def baseMarkNeedSpill (s : BuildState) : BuildState :=
  s

/-- `mark_need_spill()` (lines 171-176): call the base, then set the
spill strategy to `SPILL_ALL` unless `_is_finished`. -/
def markNeedSpill (s : BuildState) : BuildState :=
  let s0 := baseMarkNeedSpill s
  if s0.isFinished then s0 else { s0 with strategy := SpillStrategy.spillAll }

/-- The 64-bit modulus: hash values live in machine `uint64_t`. -/
def hashMod : Nat := 18446744073709551616

/-- The loop of `append_hash_columns` (lines 130-133): for each build-side
partition expression, evaluate it on the chunk and fold the resulting
column into the running per-row hash values with `fnv_hash`, in 64-bit
arithmetic. -/
def evalHashValues (env : SpillEnv) (c : Chunk) :
    List (Chunk → Except Status (List Nat)) → List Nat → Except Status (List Nat)
  | [], hv => Except.ok hv
  | ec :: rest, hv =>
    match ec c with
    | Except.error e => Except.error e
    | Except.ok res =>
        evalHashValues env c rest (List.zipWith (fun h v => env.fnvCombine h v % hashMod) hv res)

/-- `append_hash_columns(chunk)` (lines 121-136): create a hash column of
one 64-bit value per row (initially zero), fold every build-side partition
expression into it, and append it as the last column of the chunk. -/
def appendHashColumns (env : SpillEnv) (c : Chunk) : Except Status Chunk :=
  match evalHashValues env c env.buildExprs (List.replicate c.numRows 0) with
  | Except.error e => Except.error e
  | Except.ok hv => Except.ok ⟨c.cols ++ [hv]⟩

/-- Modelled from the spec: `HashJoinBuildOperator::push_chunk` (base class,
not under `src/`) — in the accumulating state the operator delegates row
insertion directly to the build index, and an empty or absent batch is a
no-op returning success. -/
def basePushChunk (s : BuildState) (copt : Option Chunk) : Status × BuildState :=
  match copt with
  | none => (Status.ok, s)
  | some c =>
      if c.numRows = 0 then (Status.ok, s)
      else (Status.ok, { s with buildChunks := s.buildChunks ++ [c] })

/-- Modelled from the spec: the build index's memory footprint
(`hash_table().mem_usage()`), abstracted to the total number of admitted
rows. -/
def memUsage (s : BuildState) : Nat :=
  (s.buildChunks.map Chunk.numRows).sum

/-- `_convert_hash_map_to_chunk()` initialisation (lines 178-183): reset the
slice onto `get_build_chunk()` and skip the leading bookkeeping columns. -/
def initHashMapIter (env : SpillEnv) : ChunkSlice :=
  (ChunkSlice.reset env.getBuildChunk).skip kHashJoinKeyColumnOffset

/-- One invocation of the closure returned by `_convert_hash_map_to_chunk()`
(lines 185-194): when the slice is exhausted, reset the in-memory build
index and signal end-of-stream; otherwise cut off at most `chunk_size()`
rows, append the hash columns, and count the produced rows. -/
def hashMapIterStep (env : SpillEnv) (s : BuildState) : Except Status Chunk × BuildState :=
  if s.iterSlice.numRows = 0 then
    (Except.error (Status.endOfFile "eos"),
     { s with htResetDone := true, buildChunks := [] })
  else
    let cut := s.iterSlice.cutoff env.chunkSize
    let s1 := { s with iterSlice := cut.2 }
    match appendHashColumns env cut.1 with
    | Except.error e => (Except.error e, s1)
    | Except.ok ch =>
        (Except.ok ch, { s1 with buildRowsCounter := s1.buildRowsCounter + ch.numRows })

/-- The body of `push_chunk` (lines 146-168), without the deferred
revocable-bytes update: delegate to the base in `NO_SPILL`; otherwise
ignore empty input, convert to the spill schema, append the hash column,
hand the chunk to the spill write buffer, and on the first spilling push
install the hash-table drain iterator and append it as a spill task. -/
def pushChunkInner (env : SpillEnv) (s : BuildState) (copt : Option Chunk) :
    Status × BuildState :=
  if s.strategy = SpillStrategy.noSpill then basePushChunk s copt
  else
    match copt with
    | none => (Status.ok, s)
    | some c =>
        if c.numRows = 0 then (Status.ok, s)
        else
          match env.convertToSpillSchema c with
          | Except.error e => (e, s)
          | Except.ok sc =>
              match appendHashColumns env sc with
              | Except.error e => (e, s)
              | Except.ok sc2 =>
                  if (env.appendBufferStatus sc2).isOk = false then
                    (env.appendBufferStatus sc2, s)
                  else
                    let s1 := { s with spillBuffer := s.spillBuffer ++ [sc2] }
                    if s1.isFirstTimeSpill then
                      let s2 := { s1 with
                        isFirstTimeSpill := false,
                        iterSlice := initHashMapIter env,
                        spillTaskCount := s1.spillTaskCount + 1 }
                      (env.appendSpillTaskStatus, s2)
                    else (Status.ok, s1)

/-- `push_chunk` (lines 142-169): run the body, then perform the deferred
`set_revocable_mem_bytes(hash_table().mem_usage())` on every exit path. -/
def pushChunk (env : SpillEnv) (s : BuildState) (copt : Option Chunk) :
    Status × BuildState :=
  let r := pushChunkInner env s copt
  (r.1, { r.2 with revocableBytes := memUsage r.2 })

/-- A sequence of `push_chunk` calls, threading the state. -/
def pushMany (env : SpillEnv) (s : BuildState) (cs : List (Option Chunk)) : BuildState :=
  cs.foldl (fun st c => (pushChunk env st c).2) s

/-- The flush-all completion callback registered by `set_finishing`
(lines 68-72): set `_is_finished` and enter the probe phase. -/
def flushAllCallBack (s : BuildState) : Status × BuildState :=
  (Status.ok, { s with isFinished := true, probePhase := true })

/-- `set_call_back_function` (lines 65-75): mark the spill channel
finishing and register the flush-all completion callback with the spiller,
returning the spiller's status. -/
def setCallBackFunction (env : SpillEnv) (s : BuildState) : Status × BuildState :=
  (env.setFlushAllCallBackStatus,
   { s with channelFinishing := true, flushCallbackRegistered := true })

/-- The spill task enqueued by `set_finishing` when the channel is working
(lines 81-85): run `set_call_back_function` and, on success, return the
end-of-stream signal. -/
def runFinalizeSpillTask (env : SpillEnv) (s : BuildState) :
    Except Status Chunk × BuildState :=
  let r := setCallBackFunction env s
  if r.1.isOk then (Except.error (Status.endOfFile "eos"), r.2)
  else (Except.error r.1, r.2)

/-- The deferred flush-scheduling step of `set_finishing` (lines 78-93):
if the spill channel is working, enqueue the finalize task (and succeed);
otherwise register the callback directly and propagate the spiller's
status. -/
def flushScheduleStep (env : SpillEnv) (s : BuildState) : Status × BuildState :=
  if s.channelIsWorking then
    (Status.ok, { s with pendingFinalizeTasks := s.pendingFinalizeTasks + 1 })
  else
    setCallBackFunction env s

/-- `publish_runtime_filters` (lines 99-119): ask the partial
runtime-filter merger to turn always-true and, if this call merged, publish
the empty filters; always returns success. -/
def publishRuntimeFilters (env : SpillEnv) (s : BuildState) : Status × BuildState :=
  let s1 := { s with publishCalls := s.publishCalls + 1 }
  if env.mergerSetAlwaysTrue then (Status.ok, { s1 with filtersPublished := true })
  else (Status.ok, s1)

/-- The cancellation propagation of `set_finishing` (lines 60-62): cancel
the spiller when the runtime state reports the query cancelled. -/
def cancelStep (env : SpillEnv) (s : BuildState) : BuildState :=
  if env.stateCancelled then { s with spillerCancelled := true } else s

/-- `set_finishing` (lines 55-97): the non-spilled path marks the channel
finishing and degrades to the base implementation; the spilled path
propagates cancellation to the spiller, publishes the runtime filters, then
(via the deferred block) schedules the final flush, keeping the first
non-success status of the two sub-operations. -/
def setFinishing (env : SpillEnv) (s : BuildState) : Status × BuildState :=
  if s.spilled = false then
    (env.baseSetFinishingStatus, { s with channelFinishing := true })
  else
    let pub := publishRuntimeFilters env (cancelStep env s)
    let flush := flushScheduleStep env pub.2
    (if pub.1.isOk then flush.1 else pub.1, flush.2)

/-- A concrete three-row, one-column batch used to evaluate the model. -/
def chunkA : Chunk := ⟨[[1, 2, 3]]⟩

/-- `chunkA` after conversion and hash-column augmentation under `env0`. -/
def chunkB : Chunk := ⟨[[1, 2, 3], [7, 7, 7]]⟩

/-- A concrete environment: schema conversion is the identity, one build
expression yielding the constant 7 per row, a simple combine function, and
all external calls succeeding. -/
def env0 : SpillEnv where
  convertToSpillSchema := fun c => Except.ok c
  buildExprs := [fun c => Except.ok (List.replicate c.numRows 7)]
  fnvCombine := fun h v => h * 31 + v
  appendBufferStatus := fun _ => Status.ok
  appendSpillTaskStatus := Status.ok
  chunkSize := 2
  getBuildChunk := ⟨[[0, 1, 2], [10, 11, 12]]⟩
  setFlushAllCallBackStatus := Status.ok
  baseSetFinishingStatus := Status.ok
  stateCancelled := false
  mergerSetAlwaysTrue := true

/-- A fresh build instance: accumulating, nothing spilled, all queues
idle. -/
def st0 : BuildState where
  isFinished := false
  strategy := SpillStrategy.noSpill
  isFirstTimeSpill := true
  probePhase := false
  spilled := false
  spillerFull := false
  spillerCancelled := false
  channelHasTask := false
  channelIsWorking := false
  channelFinishing := false
  flushCallbackRegistered := false
  pendingFinalizeTasks := 0
  spillTaskCount := 0
  buildChunks := []
  spillBuffer := []
  iterSlice := ⟨[]⟩
  htResetDone := false
  buildRowsCounter := 0
  revocableBytes := 0
  publishCalls := 0
  filtersPublished := false

/-- A finished instance with an idle spiller and channel. -/
def stFin : BuildState := { st0 with isFinished := true }

/-- A fresh instance whose strategy is already `SPILL_ALL`. -/
def stSpill : BuildState := { st0 with strategy := SpillStrategy.spillAll }

/-- An instance that has spilled, with an idle channel. -/
def stSpilled : BuildState := { st0 with spilled := true }

/-- An instance that has spilled while the spill channel is working. -/
def stSpilledWorking : BuildState := { st0 with spilled := true, channelIsWorking := true }

end SpillableHashJoin

namespace PublishVersion

open SpillableHashJoin (Status)

/-- One entry of `tablet_tasks` in `run_publish_version_task`, together
with the external observables that decide its fate: whether the rowset
pointer is set, whether the tablet manager still finds the tablet, the
result of `TxnManager::publish_txn`, and the final thread-pool submission
status after retries. -/
structure TabletPublishTask where
  tabletId : Int
  rowsetPresent : Bool
  tabletFound : Bool
  publishStatus : Status
  submitStatus : Status
deriving DecidableEq, Repr

/-- The status a tablet task ends up with (`task.st`): a failed submission
overrides it (lines 128-130); otherwise the lambda (lines 77-115) sets
`NotFound` for an absent rowset, leaves the default `OK` untouched when the
tablet is gone from the tablet manager, and stores the `publish_txn` result
otherwise. -/
def tabletTaskStatus (t : TabletPublishTask) : Status :=
  if t.submitStatus.isOk = false then t.submitStatus
  else if t.rowsetPresent = false then Status.notFound "rowset not found of tablet"
  else if t.tabletFound = false then Status.ok
  else t.publishStatus

/-- The error-collection loop (lines 141-148): every task with a non-OK
status contributes its tablet id to `error_tablet_ids`, and the overall
status becomes the first non-OK task status. -/
def collectPublishErrors (tasks : List TabletPublishTask) : Status × List Int :=
  tasks.foldl
    (fun acc t =>
      if (tabletTaskStatus t).isOk then acc
      else ((if acc.1.isOk then tabletTaskStatus t else acc.1), acc.2 ++ [t.tabletId]))
    (Status.ok, [])

/-- The tasks whose status is a failure. -/
def failingTasks (tasks : List TabletPublishTask) : List TabletPublishTask :=
  tasks.filter (fun t => (tabletTaskStatus t).isOk = false)

/-- The first non-OK task status, or `OK` when every task succeeded. -/
def firstPublishError (tasks : List TabletPublishTask) : Status :=
  match failingTasks tasks with
  | [] => Status.ok
  | t :: _ => tabletTaskStatus t

/-- A task whose rowset pointer is absent. -/
def taskNoRowset : TabletPublishTask where
  tabletId := 1
  rowsetPresent := false
  tabletFound := true
  publishStatus := Status.ok
  submitStatus := Status.ok

/-- A task whose tablet is no longer found in the tablet manager. -/
def taskDroppedTablet : TabletPublishTask where
  tabletId := 2
  rowsetPresent := true
  tabletFound := false
  publishStatus := Status.ok
  submitStatus := Status.ok

/-- A concrete task list exercising both tolerated and failing cases. -/
def tasks0 : List TabletPublishTask := [taskNoRowset, taskDroppedTablet]

end PublishVersion

namespace SpillableHashJoin

/-- C1: the spec claims `need_input()` is false if and only if the spiller
is full or the spill channel holds tasks; the code additionally returns
false for a finished operator (line 52), so the claimed equivalence fails
on a finished instance whose spiller and channel are idle. -/
theorem c1_need_input_counterexample :
    ¬ (∀ s : BuildState,
        (needInput s = false ↔ (s.spillerFull = true ∨ s.channelHasTask = true))) := by
  intro h
  have h2 := (h stFin).mp (by decide)
  exact absurd h2 (by decide)

/-- C1 (amended): for every state of a build instance that is not yet
finished, `need_input()` returns false if and only if the spiller reports
full or the spill channel has pending/working tasks; a finished instance
always reports `need_input() = false`. -/
theorem c1_need_input_iff_amended (s : BuildState) :
    (s.isFinished = false →
      (needInput s = false ↔ (s.spillerFull = true ∨ s.channelHasTask = true)))
    ∧ (s.isFinished = true → needInput s = false) := by
  unfold needInput
  cases hf : s.isFinished <;>
    cases hsp : s.spillerFull <;>
      cases hch : s.channelHasTask <;> simp

/-- C1 witness: the amended equivalence evaluated on a fresh idle
instance and on one with a full spiller. -/
theorem c1_need_input_iff_amended_witness :
    st0.isFinished = false
    ∧ (needInput st0 = false ↔ (st0.spillerFull = true ∨ st0.channelHasTask = true)) := by
  refine ⟨rfl, (c1_need_input_iff_amended st0).1 rfl⟩

/-- C9: a finished operator never requests further input: `is_finished()`
returning true forces `need_input()` to return false, whatever the spiller
and channel report. -/
theorem c9_finished_never_needs_input (s : BuildState) (h : isFinished s = true) :
    needInput s = false := by
  unfold isFinished at h
  unfold needInput
  simp [h]

/-- C9 witness: a finished instance with an idle spiller and channel. -/
theorem c9_finished_never_needs_input_witness :
    isFinished stFin = true ∧ needInput stFin = false :=
  ⟨by decide, c9_finished_never_needs_input stFin (by decide)⟩

/-- C6: `mark_need_spill()` is idempotent (a second call leaves the state
unchanged), it is a no-op for the spill strategy once the operator has
finished, and on an unfinished operator it sets the strategy to
`SPILL_ALL`. -/
theorem c6_mark_need_spill_idempotent (s : BuildState) :
    markNeedSpill (markNeedSpill s) = markNeedSpill s
    ∧ (s.isFinished = true → (markNeedSpill s).strategy = s.strategy)
    ∧ (s.isFinished = false → (markNeedSpill s).strategy = SpillStrategy.spillAll) := by
  unfold markNeedSpill baseMarkNeedSpill
  cases hf : s.isFinished <;> simp [hf]

/-- C6 witness: idempotence on a fresh instance, and the no-op on a
finished one. -/
theorem c6_mark_need_spill_idempotent_witness :
    markNeedSpill (markNeedSpill st0) = markNeedSpill st0
    ∧ (markNeedSpill st0).strategy = SpillStrategy.spillAll
    ∧ (markNeedSpill stFin).strategy = stFin.strategy :=
  ⟨(c6_mark_need_spill_idempotent st0).1,
   (c6_mark_need_spill_idempotent st0).2.2 rfl,
   (c6_mark_need_spill_idempotent stFin).2.1 rfl⟩

/-- C7: `push_chunk` ignores an absent batch, and an empty batch, leaving
the build index, the spill write buffer and the spill task counter
untouched and returning success — under both strategies. -/
theorem c7_empty_push_noop (env : SpillEnv) (s : BuildState) :
    ((pushChunk env s none).1 = Status.ok
      ∧ (pushChunk env s none).2.buildChunks = s.buildChunks
      ∧ (pushChunk env s none).2.spillBuffer = s.spillBuffer
      ∧ (pushChunk env s none).2.spillTaskCount = s.spillTaskCount)
    ∧ (∀ c : Chunk, c.numRows = 0 →
        (pushChunk env s (some c)).1 = Status.ok
        ∧ (pushChunk env s (some c)).2.buildChunks = s.buildChunks
        ∧ (pushChunk env s (some c)).2.spillBuffer = s.spillBuffer
        ∧ (pushChunk env s (some c)).2.spillTaskCount = s.spillTaskCount) := by
  constructor
  · by_cases hs : s.strategy = SpillStrategy.noSpill <;>
      simp [pushChunk, pushChunkInner, basePushChunk, hs]
  · intro c hc
    by_cases hs : s.strategy = SpillStrategy.noSpill <;>
      simp [pushChunk, pushChunkInner, basePushChunk, hs, hc]

/-- C7 witness: the no-op evaluated on a fresh instance, for the absent
batch, and for an empty batch under the spilling strategy. -/
theorem c7_empty_push_noop_witness :
    (pushChunk env0 st0 none).1 = Status.ok
    ∧ (pushChunk env0 stSpill (some ⟨[]⟩)).1 = Status.ok
    ∧ (pushChunk env0 stSpill (some ⟨[]⟩)).2.spillBuffer = stSpill.spillBuffer :=
  ⟨(c7_empty_push_noop env0 st0).1.1,
   ((c7_empty_push_noop env0 stSpill).2 ⟨[]⟩ rfl).1,
   ((c7_empty_push_noop env0 stSpill).2 ⟨[]⟩ rfl).2.2.1⟩

/-- One `push_chunk` call either leaves the first-time-spill flag and the
spill-task counter unchanged, or — only when the flag was still set —
clears the flag and increments the counter by exactly one. -/
theorem pushChunk_task_step (env : SpillEnv) (s : BuildState) (copt : Option Chunk) :
    ((pushChunk env s copt).2.isFirstTimeSpill = s.isFirstTimeSpill
      ∧ (pushChunk env s copt).2.spillTaskCount = s.spillTaskCount)
    ∨ (s.isFirstTimeSpill = true
      ∧ (pushChunk env s copt).2.isFirstTimeSpill = false
      ∧ (pushChunk env s copt).2.spillTaskCount = s.spillTaskCount + 1) := by
  unfold pushChunk pushChunkInner basePushChunk
  repeat' split
  all_goals cases hf : s.isFirstTimeSpill <;> simp_all

/-- The once-only invariant: the spill-task counter never exceeds one and
is zero while the first-time-spill flag is still set; preserved by every
`push_chunk` call. -/
theorem pushChunk_task_inv (env : SpillEnv) (s : BuildState) (copt : Option Chunk)
    (h1 : s.isFirstTimeSpill = true → s.spillTaskCount = 0)
    (h2 : s.spillTaskCount ≤ 1) :
    ((pushChunk env s copt).2.isFirstTimeSpill = true →
      (pushChunk env s copt).2.spillTaskCount = 0)
    ∧ (pushChunk env s copt).2.spillTaskCount ≤ 1 := by
  rcases pushChunk_task_step env s copt with ⟨ha, hb⟩ | ⟨ha, hb, hc⟩
  · rw [ha, hb]; exact ⟨h1, h2⟩
  · rw [hb, hc, h1 ha]
    refine ⟨fun hf => absurd hf (by decide), by omega⟩

/-- The once-only invariant extends to any sequence of `push_chunk`
calls. -/
theorem pushMany_task_inv (env : SpillEnv) (cs : List (Option Chunk)) :
    ∀ s : BuildState, (s.isFirstTimeSpill = true → s.spillTaskCount = 0) →
      s.spillTaskCount ≤ 1 →
      ((pushMany env s cs).isFirstTimeSpill = true →
        (pushMany env s cs).spillTaskCount = 0)
      ∧ (pushMany env s cs).spillTaskCount ≤ 1 := by
  induction cs with
  | nil => intro s h1 h2; exact ⟨h1, h2⟩
  | cons c cs ih =>
      intro s h1 h2
      have hstep := pushChunk_task_inv env s c h1 h2
      exact ih ((pushChunk env s c).2) hstep.1 hstep.2

/-- C2: starting from a build instance that has not yet produced the
hash-table-slice spill task, any sequence of `push_chunk` calls appends
that task at most once; and a push on an instance whose first-time-spill
flag is already cleared never appends it again (the counter and the flag
stay unchanged). -/
theorem c2_spill_task_at_most_once (env : SpillEnv) (s : BuildState)
    (cs : List (Option Chunk))
    (_h1 : s.isFirstTimeSpill = true) (h2 : s.spillTaskCount = 0) :
    (pushMany env s cs).spillTaskCount ≤ 1
    ∧ (∀ (s' : BuildState) (copt : Option Chunk), s'.isFirstTimeSpill = false →
        (pushChunk env s' copt).2.spillTaskCount = s'.spillTaskCount
        ∧ (pushChunk env s' copt).2.isFirstTimeSpill = false) := by
  constructor
  · exact (pushMany_task_inv env cs s (fun _ => h2) (by omega)).2
  · intro s' copt hf
    rcases pushChunk_task_step env s' copt with ⟨ha, hb⟩ | ⟨ha, hb, hc⟩
    · rw [ha, hb]; exact ⟨rfl, hf⟩
    · rw [hf] at ha; cases ha

/-- C2 witness: two successive non-empty spilling pushes produce the spill
task exactly once. -/
theorem c2_spill_task_at_most_once_witness :
    (pushMany env0 stSpill [some chunkA, some chunkA]).spillTaskCount ≤ 1 :=
  (c2_spill_task_at_most_once env0 stSpill [some chunkA, some chunkA] rfl rfl).1

/-- C3: on a spilled instance `set_finishing` always attempts the
runtime-filter publication (the publication counter advances whatever the
flush-scheduling outcome is), the publication itself reports success in
this source, the overall result is the first non-success status of
publication and flush scheduling, and consequently the flush-scheduling
status is propagated unmasked. -/
theorem c3_set_finishing_error_priority (env : SpillEnv) (s : BuildState)
    (h : s.spilled = true) :
    (setFinishing env s).2.publishCalls = s.publishCalls + 1
    ∧ (publishRuntimeFilters env (cancelStep env s)).1 = Status.ok
    ∧ (setFinishing env s).1 =
        (if (publishRuntimeFilters env (cancelStep env s)).1.isOk
          then (flushScheduleStep env (publishRuntimeFilters env (cancelStep env s)).2).1
          else (publishRuntimeFilters env (cancelStep env s)).1)
    ∧ (setFinishing env s).1 =
        (flushScheduleStep env (publishRuntimeFilters env (cancelStep env s)).2).1 := by
  unfold setFinishing publishRuntimeFilters flushScheduleStep setCallBackFunction cancelStep
  cases hc : env.stateCancelled <;>
    cases hm : env.mergerSetAlwaysTrue <;>
      cases hw : s.channelIsWorking <;>
        simp_all [Status.isOk]

/-- C3 witness: a spilled idle instance with every external call
succeeding. -/
theorem c3_set_finishing_error_priority_witness :
    stSpilled.spilled = true
    ∧ (setFinishing env0 stSpilled).2.publishCalls = stSpilled.publishCalls + 1
    ∧ (setFinishing env0 stSpilled).1 =
        (flushScheduleStep env0 (publishRuntimeFilters env0 (cancelStep env0 stSpilled)).2).1 :=
  ⟨rfl,
   (c3_set_finishing_error_priority env0 stSpilled rfl).1,
   (c3_set_finishing_error_priority env0 stSpilled rfl).2.2.2⟩

/-- C5: on a spilled instance, when the spill channel is working
`set_finishing` enqueues one finalize spill task (and does not register
the callback itself), otherwise it registers the flush-all callback
directly; the enqueued task, when executed, registers the callback; and
the registered callback, once fired, marks the instance finished and
enables the probe phase. -/
theorem c5_set_finishing_callback (env : SpillEnv) (s : BuildState)
    (h : s.spilled = true) :
    (s.channelIsWorking = true →
      (setFinishing env s).2.pendingFinalizeTasks = s.pendingFinalizeTasks + 1
      ∧ (setFinishing env s).2.flushCallbackRegistered = s.flushCallbackRegistered)
    ∧ (s.channelIsWorking = false →
      (setFinishing env s).2.flushCallbackRegistered = true)
    ∧ (∀ t : BuildState, (runFinalizeSpillTask env t).2.flushCallbackRegistered = true)
    ∧ (∀ t : BuildState,
        (flushAllCallBack t).2.isFinished = true ∧ (flushAllCallBack t).2.probePhase = true) := by
  refine ⟨?_, ?_, ?_, ?_⟩
  · intro hw
    unfold setFinishing publishRuntimeFilters flushScheduleStep cancelStep
    cases hc : env.stateCancelled <;>
      cases hm : env.mergerSetAlwaysTrue <;>
        simp_all
  · intro hw
    unfold setFinishing publishRuntimeFilters flushScheduleStep setCallBackFunction cancelStep
    cases hc : env.stateCancelled <;>
      cases hm : env.mergerSetAlwaysTrue <;>
        simp_all
  · intro t
    unfold runFinalizeSpillTask setCallBackFunction
    cases ho : env.setFlushAllCallBackStatus.isOk <;> simp_all
  · intro t
    exact ⟨rfl, rfl⟩

/-- C5 witness: a working channel gets the finalize task, an idle channel
gets the direct registration, the task registers the callback, and the
callback finishes the instance and enables probing. -/
theorem c5_set_finishing_callback_witness :
    (setFinishing env0 stSpilledWorking).2.pendingFinalizeTasks =
        stSpilledWorking.pendingFinalizeTasks + 1
    ∧ (setFinishing env0 stSpilled).2.flushCallbackRegistered = true
    ∧ (runFinalizeSpillTask env0 st0).2.flushCallbackRegistered = true
    ∧ (flushAllCallBack st0).2.isFinished = true :=
  ⟨((c5_set_finishing_callback env0 stSpilledWorking rfl).1 rfl).1,
   (c5_set_finishing_callback env0 stSpilled rfl).2.1 rfl,
   (c5_set_finishing_callback env0 stSpilled rfl).2.2.1 st0,
   ((c5_set_finishing_callback env0 stSpilled rfl).2.2.2 st0).1⟩

/-- Every entry produced by one `fnv_hash` fold step is a 64-bit value. -/
theorem zipWith_hash_lt (f : Nat → Nat → Nat) :
    ∀ (a b : List Nat), ∀ x ∈ List.zipWith (fun h v => f h v % hashMod) a b, x < hashMod := by
  intro a
  induction a with
  | nil => intro b x hx; simp at hx
  | cons h t ih =>
      intro b x hx
      cases b with
      | nil => simp at hx
      | cons v bs =>
          simp only [List.zipWith_cons_cons, List.mem_cons] at hx
          rcases hx with hx | hx
          · subst hx; exact Nat.mod_lt _ (by norm_num [hashMod])
          · exact ih bs x hx

/-- The hash-value fold can only shorten the running hash list. -/
theorem evalHashValues_ok_le (env : SpillEnv) (c : Chunk) :
    ∀ (ecs : List (Chunk → Except Status (List Nat))) (hv hv' : List Nat),
      evalHashValues env c ecs hv = Except.ok hv' → hv'.length ≤ hv.length := by
  intro ecs
  induction ecs with
  | nil =>
      intro hv hv' h
      cases h
      exact Nat.le_refl _
  | cons ec rest ih =>
      intro hv hv' h
      unfold evalHashValues at h
      cases he : ec c with
      | error e => rw [he] at h; cases h
      | ok res =>
          rw [he] at h
          have := ih _ _ h
          calc hv'.length ≤ (List.zipWith (fun h v => env.fnvCombine h v % hashMod) hv res).length :=
                this
            _ ≤ hv.length := by rw [List.length_zipWith]; exact Nat.min_le_left _ _

/-- When every build expression yields one value per row, the hash-value
fold preserves the length of the running hash list. -/
theorem evalHashValues_ok_length (env : SpillEnv) (c : Chunk) (n : Nat) :
    ∀ (ecs : List (Chunk → Except Status (List Nat))) (hv hv' : List Nat),
      (∀ ec ∈ ecs, ∀ r, ec c = Except.ok r → r.length = n) →
      hv.length = n →
      evalHashValues env c ecs hv = Except.ok hv' → hv'.length = n := by
  intro ecs
  induction ecs with
  | nil =>
      intro hv hv' _ hlen h
      cases h
      exact hlen
  | cons ec rest ih =>
      intro hv hv' hwf hlen h
      unfold evalHashValues at h
      cases he : ec c with
      | error e => rw [he] at h; cases h
      | ok res =>
          rw [he] at h
          have hres : res.length = n := hwf ec (List.mem_cons_self _ _) res he
          refine ih _ _ (fun e hm => hwf e (List.mem_cons_of_mem _ hm)) ?_ h
          rw [List.length_zipWith, hlen, hres]
          exact Nat.min_self n

/-- The hash-value fold keeps every entry below 2^64. -/
theorem evalHashValues_ok_lt (env : SpillEnv) (c : Chunk) :
    ∀ (ecs : List (Chunk → Except Status (List Nat))) (hv hv' : List Nat),
      (∀ x ∈ hv, x < hashMod) →
      evalHashValues env c ecs hv = Except.ok hv' → ∀ x ∈ hv', x < hashMod := by
  intro ecs
  induction ecs with
  | nil =>
      intro hv hv' hb h
      cases h
      exact hb
  | cons ec rest ih =>
      intro hv hv' hb h
      unfold evalHashValues at h
      cases he : ec c with
      | error e => rw [he] at h; cases h
      | ok res => rw [he] at h; exact ih _ _ (zipWith_hash_lt env.fnvCombine hv res) h

/-- A successful `append_hash_columns` appends exactly one column, namely
the folded hash values over the chunk's rows. -/
theorem appendHashColumns_ok (env : SpillEnv) (c c' : Chunk)
    (h : appendHashColumns env c = Except.ok c') :
    ∃ hv, c'.cols = c.cols ++ [hv]
      ∧ evalHashValues env c env.buildExprs (List.replicate c.numRows 0) = Except.ok hv := by
  unfold appendHashColumns at h
  cases heval : evalHashValues env c env.buildExprs (List.replicate c.numRows 0) with
  | error e => rw [heval] at h; cases h
  | ok hv =>
      rw [heval] at h
      cases h
      exact ⟨hv, rfl, rfl⟩

/-- A successful `append_hash_columns` cannot increase the row count. -/
theorem appendHashColumns_numRows_le (env : SpillEnv) (c c' : Chunk)
    (h : appendHashColumns env c = Except.ok c') : c'.numRows ≤ c.numRows := by
  obtain ⟨hv, hcols, heval⟩ := appendHashColumns_ok env c c' h
  have hlen : hv.length ≤ c.numRows := by
    have := evalHashValues_ok_le env c env.buildExprs _ _ heval
    simpa using this
  cases hcc : c.cols with
  | nil =>
      have h0 : c.numRows = 0 := by simp [Chunk.numRows, hcc]
      rw [hcc] at hcols
      simp only [List.nil_append] at hcols
      simp [Chunk.numRows, hcols, h0]
      omega
  | cons col rest =>
      rw [hcc] at hcols
      have : c'.numRows = col.length := by simp [Chunk.numRows, hcols]
      rw [this]
      simp [Chunk.numRows, hcc]

/-- A cutoff batch holds at most the requested number of rows. -/
theorem cutoff_numRows_le (s : ChunkSlice) (n : Nat) :
    ((s.cutoff n).1).numRows ≤ n := by
  unfold ChunkSlice.cutoff
  cases hc : s.cols with
  | nil => simp [Chunk.numRows]
  | cons col rest => simp [Chunk.numRows, List.length_take]

/-- C4: a non-empty batch pushed under `SPILL_ALL` is converted to the
spill schema, gets exactly one appended hash column with one 64-bit value
per row, and the augmented batch is handed to the spill write buffer; a
batch pushed under `NO_SPILL` never reaches the spill buffer and is
admitted into the build index untouched (no hash column appended). -/
theorem c4_partition_hash_column :
    (∀ (env : SpillEnv) (s : BuildState) (c sc sc2 : Chunk),
      s.strategy = SpillStrategy.spillAll →
      c.numRows ≠ 0 →
      env.convertToSpillSchema c = Except.ok sc →
      (∀ ec ∈ env.buildExprs, ∀ r, ec sc = Except.ok r → r.length = sc.numRows) →
      appendHashColumns env sc = Except.ok sc2 →
      (env.appendBufferStatus sc2).isOk = true →
      ((pushChunk env s (some c)).2.spillBuffer = s.spillBuffer ++ [sc2]
        ∧ ∃ hv, sc2.cols = sc.cols ++ [hv]
            ∧ hv.length = sc.numRows
            ∧ ∀ x ∈ hv, x < hashMod))
    ∧ (∀ (env : SpillEnv) (s : BuildState) (copt : Option Chunk),
      s.strategy = SpillStrategy.noSpill →
      ((pushChunk env s copt).2.spillBuffer = s.spillBuffer
        ∧ ((pushChunk env s copt).2.buildChunks = s.buildChunks
            ∨ ∃ c, copt = some c
                ∧ (pushChunk env s copt).2.buildChunks = s.buildChunks ++ [c]))) := by
  constructor
  · intro env s c sc sc2 hs hc hconv hwf happ hbuf
    have hstrat : ¬ s.strategy = SpillStrategy.noSpill := by rw [hs]; intro hx; cases hx
    constructor
    · unfold pushChunk pushChunkInner
      simp only [hstrat, if_false, hc, if_neg hc, hconv, happ, hbuf]
      by_cases hft : s.isFirstTimeSpill = true <;> simp [hft]
    · obtain ⟨hv, hcols, heval⟩ := appendHashColumns_ok env sc sc2 happ
      refine ⟨hv, hcols, ?_, ?_⟩
      · exact evalHashValues_ok_length env sc sc.numRows env.buildExprs _ hv hwf
          (by simp) heval
      · exact evalHashValues_ok_lt env sc env.buildExprs _ hv
          (by intro x hx; rw [List.eq_of_mem_replicate hx]; norm_num [hashMod]) heval
  · intro env s copt hs
    cases copt with
    | none => simp [pushChunk, pushChunkInner, basePushChunk, hs]
    | some c =>
        by_cases hc : c.numRows = 0
        · simp [pushChunk, pushChunkInner, basePushChunk, hs, hc]
        · refine ⟨?_, Or.inr ⟨c, rfl, ?_⟩⟩ <;>
            simp [pushChunk, pushChunkInner, basePushChunk, hs, hc]

/-- C4 witness: pushing the concrete three-row batch under `SPILL_ALL`
appends the hash column `[7, 7, 7]` and hands the augmented batch to the
spill buffer; the same batch under `NO_SPILL` leaves the spill buffer
untouched. -/
theorem c4_partition_hash_column_witness :
    ((pushChunk env0 stSpill (some chunkA)).2.spillBuffer = stSpill.spillBuffer ++ [chunkB]
      ∧ ∃ hv, chunkB.cols = chunkA.cols ++ [hv]
          ∧ hv.length = chunkA.numRows
          ∧ ∀ x ∈ hv, x < hashMod)
    ∧ (pushChunk env0 st0 (some chunkA)).2.spillBuffer = st0.spillBuffer :=
  ⟨c4_partition_hash_column.1 env0 stSpill chunkA chunkA chunkB rfl (by decide)
      rfl
      (by
        intro ec hec r hr
        simp only [env0, List.mem_singleton] at hec
        subst hec
        simp only [Except.ok.injEq] at hr
        subst hr
        simp)
      rfl rfl,
   (c4_partition_hash_column.2 env0 st0 (some chunkA) rfl).1⟩

/-- C8: the drain cursor starts past the fixed leading bookkeeping offset
of the build chunk, every batch it successfully yields holds at most
`chunk_size()` rows, and on an exhausted slice it resets the in-memory
build index and yields the end-of-stream signal. -/
theorem c8_drain_cursor (env : SpillEnv) (s : BuildState) :
    (initHashMapIter env).cols = env.getBuildChunk.cols.drop kHashJoinKeyColumnOffset
    ∧ (∀ (ch : Chunk) (s' : BuildState),
        hashMapIterStep env s = (Except.ok ch, s') → ch.numRows ≤ env.chunkSize)
    ∧ (s.iterSlice.numRows = 0 →
        hashMapIterStep env s =
          (Except.error (Status.endOfFile "eos"),
            { s with htResetDone := true, buildChunks := [] })) := by
  refine ⟨rfl, ?_, ?_⟩
  · intro ch s' hstep
    unfold hashMapIterStep at hstep
    by_cases hz : s.iterSlice.numRows = 0
    · rw [if_pos hz] at hstep
      cases hstep
    · rw [if_neg hz] at hstep
      dsimp only at hstep
      cases happ : appendHashColumns env (s.iterSlice.cutoff env.chunkSize).1 with
      | error e => rw [happ] at hstep; cases hstep
      | ok ch2 =>
          rw [happ] at hstep
          have hch : ch2 = ch := by
            have := congrArg Prod.fst hstep
            simpa using this
          subst hch
          calc ch2.numRows ≤ ((s.iterSlice.cutoff env.chunkSize).1).numRows :=
                appendHashColumns_numRows_le env _ _ happ
            _ ≤ env.chunkSize := cutoff_numRows_le _ _
  · intro hz
    unfold hashMapIterStep
    rw [if_pos hz]

/-- C8 witness: stepping the cursor of an instance with an exhausted slice
resets the build index and signals end-of-stream, and a freshly installed
cursor starts one bookkeeping column into the build chunk. -/
theorem c8_drain_cursor_witness :
    (initHashMapIter env0).cols = env0.getBuildChunk.cols.drop kHashJoinKeyColumnOffset
    ∧ hashMapIterStep env0 st0 =
        (Except.error (Status.endOfFile "eos"),
          { st0 with htResetDone := true, buildChunks := [] }) :=
  ⟨(c8_drain_cursor env0 st0).1, (c8_drain_cursor env0 st0).2.2 rfl⟩

end SpillableHashJoin

namespace PublishVersion

open SpillableHashJoin (Status)

/-- The error-collection fold, characterised for an arbitrary accumulator:
it appends the failing tablet ids and keeps the first non-OK status. -/
theorem collectPublishErrors_go (tasks : List TabletPublishTask) :
    ∀ (st : Status) (acc : List Int),
      tasks.foldl
        (fun acc t =>
          if (tabletTaskStatus t).isOk then acc
          else ((if acc.1.isOk then tabletTaskStatus t else acc.1), acc.2 ++ [t.tabletId]))
        (st, acc)
      = ((if st.isOk then firstPublishError tasks else st),
          acc ++ (failingTasks tasks).map (fun t => t.tabletId)) := by
  induction tasks with
  | nil =>
      intro st acc
      cases st <;> simp [firstPublishError, failingTasks, Status.isOk]
  | cons t ts ih =>
      intro st acc
      by_cases ht : (tabletTaskStatus t).isOk = true
      · simp only [List.foldl_cons, ht, if_pos]
        rw [ih st acc]
        have hf : failingTasks (t :: ts) = failingTasks ts := by
          simp [failingTasks, List.filter_cons, ht]
        have hfe : firstPublishError (t :: ts) = firstPublishError ts := by
          simp [firstPublishError, hf]
        rw [hf, hfe]
      · have ht' : (tabletTaskStatus t).isOk = false := by
          cases hx : (tabletTaskStatus t).isOk
          · rfl
          · exact absurd hx ht
        simp only [List.foldl_cons, ht', Bool.false_eq_true, if_neg, if_false]
        rw [ih _ _]
        have hf : failingTasks (t :: ts) = t :: failingTasks ts := by
          simp [failingTasks, List.filter_cons, ht']
        have hfe : firstPublishError (t :: ts) = tabletTaskStatus t := by
          simp [firstPublishError, hf]
        rw [hf, hfe]
        cases hst : st.isOk
        · simp [hst, ht']
        · simp [hst, ht']

/-- C10: the finish request collects exactly the tablet ids of the failing
tasks (in order) and its task status is the first failure; a task whose
rowset is absent fails with `NotFound` (and therefore lands in
`error_tablet_ids`), while a task whose tablet is gone from the tablet
manager keeps the default `OK` status and is therefore never collected. -/
theorem c10_publish_error_collection (tasks : List TabletPublishTask) :
    (collectPublishErrors tasks).2 = (failingTasks tasks).map (fun t => t.tabletId)
    ∧ (collectPublishErrors tasks).1 = firstPublishError tasks
    ∧ (∀ t : TabletPublishTask, t.submitStatus.isOk = true → t.rowsetPresent = false →
        tabletTaskStatus t = Status.notFound "rowset not found of tablet")
    ∧ (∀ t : TabletPublishTask, t.submitStatus.isOk = true → t.rowsetPresent = true →
        t.tabletFound = false → tabletTaskStatus t = Status.ok) := by
  refine ⟨?_, ?_, ?_, ?_⟩
  · unfold collectPublishErrors
    rw [collectPublishErrors_go tasks Status.ok []]
    simp [Status.isOk]
  · unfold collectPublishErrors
    rw [collectPublishErrors_go tasks Status.ok []]
    simp [Status.isOk]
  · intro t hsub hrow
    unfold tabletTaskStatus
    rw [hsub, hrow]
    simp
  · intro t hsub hrow hfound
    unfold tabletTaskStatus
    rw [hsub, hrow, hfound]
    simp

/-- C10 witness: on the concrete task list, the rowset-less tablet is the
only failure (its id is collected and its `NotFound` becomes the task
status), while the dropped tablet stays `OK` and uncollected. -/
theorem c10_publish_error_collection_witness :
    (collectPublishErrors tasks0).2 = (failingTasks tasks0).map (fun t => t.tabletId)
    ∧ tabletTaskStatus taskNoRowset = Status.notFound "rowset not found of tablet"
    ∧ tabletTaskStatus taskDroppedTablet = Status.ok :=
  ⟨(c10_publish_error_collection tasks0).1,
   (c10_publish_error_collection tasks0).2.2.1 taskNoRowset rfl rfl,
   (c10_publish_error_collection tasks0).2.2.2 taskDroppedTablet rfl rfl rfl⟩

end PublishVersion
